import Mathlib

/-!
Verification of the fastboot host-side client.

The development embeds the protocol engine and reply decoder of
`src/fastboot.rs` and the USB transport adapter's `read` of
`usbio/src/usbio.rs` as pure Lean functions.  Bytes are `Nat` values
(< 256 in every real execution), buffers are `List Nat`, and the
transport is a scripted state (`World`) recording the outcomes of the
successive `write_all` and `read` calls together with a log of the
payloads written and the messages printed.
-/

namespace Fb

/-! ### UTF-8 encoding and lossy decoding

`String::from_utf8_lossy` (used by the reply decoder) and UTF-8 encoding
of command arguments (`String::as_bytes` / `into_bytes`). -/

/-- Standard UTF-8 encoding of one scalar value. -/
def encodeChar (c : Char) : List Nat :=
  let n := c.toNat
  if n < 0x80 then [n]
  else if n < 0x800 then [0xC0 + n / 64, 0x80 + n % 64]
  else if n < 0x10000 then [0xE0 + n / 4096, 0x80 + (n / 64) % 64, 0x80 + n % 64]
  else [0xF0 + n / 262144, 0x80 + (n / 4096) % 64, 0x80 + (n / 64) % 64, 0x80 + n % 64]

/-- UTF-8 encoding of a character list. -/
def utf8Encode (cs : List Char) : List Nat := (cs.map encodeChar).flatten

/-- The byte string of a Lean `String` (Rust `str::as_bytes`). -/
def strBytes (s : String) : List Nat := utf8Encode s.data

/-- Is `b` a UTF-8 continuation byte (`0x80..=0xBF`)? -/
def isCont (b : Nat) : Bool := decide (0x80 ≤ b ∧ b ≤ 0xBF)

/-- The replacement character U+FFFD. -/
def repChar : Char := Char.ofNat 0xFFFD

/-- `String::from_utf8_lossy`: decode a byte sequence as UTF-8, replacing
each maximal invalid subpart by one U+FFFD, and an incomplete trailing
sequence by one U+FFFD.  Any value ≥ 0x100 (impossible for a real byte)
falls into the invalid-start case. -/
def utf8Lossy : List Nat → List Char
  | [] => []
  | b0 :: rest =>
    if b0 < 0x80 then Char.ofNat b0 :: utf8Lossy rest
    else if 0xC2 ≤ b0 ∧ b0 ≤ 0xDF then
      match rest with
      | [] => [repChar]
      | b1 :: rest1 =>
        if isCont b1 then
          Char.ofNat ((b0 % 0x20) * 64 + b1 % 64) :: utf8Lossy rest1
        else repChar :: utf8Lossy (b1 :: rest1)
    else if 0xE0 ≤ b0 ∧ b0 ≤ 0xEF then
      match rest with
      | [] => [repChar]
      | b1 :: rest1 =>
        if (if b0 = 0xE0 then decide (0xA0 ≤ b1 ∧ b1 ≤ 0xBF)
            else if b0 = 0xED then decide (0x80 ≤ b1 ∧ b1 ≤ 0x9F)
            else isCont b1) then
          match rest1 with
          | [] => [repChar]
          | b2 :: rest2 =>
            if isCont b2 then
              Char.ofNat ((b0 % 0x10) * 4096 + (b1 % 64) * 64 + b2 % 64) :: utf8Lossy rest2
            else repChar :: utf8Lossy (b2 :: rest2)
        else repChar :: utf8Lossy (b1 :: rest1)
    else if 0xF0 ≤ b0 ∧ b0 ≤ 0xF4 then
      match rest with
      | [] => [repChar]
      | b1 :: rest1 =>
        if (if b0 = 0xF0 then decide (0x90 ≤ b1 ∧ b1 ≤ 0xBF)
            else if b0 = 0xF4 then decide (0x80 ≤ b1 ∧ b1 ≤ 0x8F)
            else isCont b1) then
          match rest1 with
          | [] => [repChar]
          | b2 :: rest2 =>
            if isCont b2 then
              match rest2 with
              | [] => [repChar]
              | b3 :: rest3 =>
                if isCont b3 then
                  Char.ofNat ((b0 % 8) * 262144 + (b1 % 64) * 4096 + (b2 % 64) * 64 + b3 % 64)
                    :: utf8Lossy rest3
                else repChar :: utf8Lossy (b3 :: rest3)
            else repChar :: utf8Lossy (b2 :: rest2)
        else repChar :: utf8Lossy (b1 :: rest1)
    else repChar :: utf8Lossy rest

/-! ### Hexadecimal parsing (`usize::from_str_radix(_, 16)`) -/

/-- `char::to_digit(16)`. -/
def hexVal? (c : Char) : Option Nat :=
  let n := c.toNat
  if 48 ≤ n ∧ n ≤ 57 then some (n - 48)
  else if 97 ≤ n ∧ n ≤ 102 then some (n - 87)
  else if 65 ≤ n ∧ n ≤ 70 then some (n - 55)
  else none

/-- `usize::MAX` on the 64-bit reference target. -/
def USIZE_MAX : Nat := 2 ^ 64 - 1

/-- Digit-accumulation loop of `from_str_radix`, with the checked-arithmetic
overflow test of the Rust implementation. -/
def parseHexCore : Nat → List Char → Option Nat
  | acc, [] => some acc
  | acc, c :: cs =>
    match hexVal? c with
    | none => none
    | some d =>
      if acc * 16 + d ≤ USIZE_MAX then parseHexCore (acc * 16 + d) cs else none

/-- `usize::from_str_radix(s, 16)`: an empty string or a bare sign fails;
a leading `+` is skipped; `-` is not a digit for an unsigned type. -/
def fromStrRadix16 : List Char → Option Nat
  | [] => none
  | ['+'] => none
  | '+' :: rest => parseHexCore 0 rest
  | s => parseHexCore 0 s

/-! ### Reply decoding (`impl From<&mut [u8]> for Reply`) -/

/-- The structured reply of the protocol engine. -/
inductive Reply
  | okay (s : String)
  | data (size : Nat)
  | fail (s : String)
  | info (s : String)
deriving DecidableEq

def OKAY_TAG : List Nat := strBytes "OKAY"
def INFO_TAG : List Nat := strBytes "INFO"
def FAIL_TAG : List Nat := strBytes "FAIL"
def DATA_TAG : List Nat := strBytes "DATA"

/-- The NUL character trimmed from a DATA payload (`char::from(0)`). -/
def nulChar : Char := Char.ofNat 0

/-- `str::trim_matches(char::from(0))`: strip leading and trailing NULs. -/
def trimNul (s : List Char) : List Char :=
  ((s.dropWhile (· = nulChar)).reverse.dropWhile (· = nulChar)).reverse

/-- `Reply::from(&mut [u8])`.  `reply.split_at(4)` panics when the buffer
is shorter than 4 bytes; the panic is modelled by `none`.  Otherwise the
decoder is total: the first four bytes select the variant, the remainder
is decoded lossily as UTF-8; a `DATA` payload is NUL-trimmed and parsed
as hexadecimal, a parse failure becoming
`Fail("DATA: Failed to decode size")`; an unknown tag is logged to
stderr and becomes `Fail` with the lossy payload. -/
def Reply.fromRaw (reply : List Nat) : Option Reply :=
  if reply.length < 4 then none
  else
    let kind := reply.take 4
    let s := utf8Lossy (reply.drop 4)
    if kind = OKAY_TAG then some (.okay (String.mk s))
    else if kind = INFO_TAG then some (.info (String.mk s))
    else if kind = FAIL_TAG then some (.fail (String.mk s))
    else if kind = DATA_TAG then
      match fromStrRadix16 (trimNul s) with
      | some size => some (.data size)
      | none => some (.fail "DATA: Failed to decode size")
    else some (.fail (String.mk s))

example : Reply.fromRaw (DATA_TAG ++ strBytes "00000200") = some (.data 512) := by decide
example : Reply.fromRaw (DATA_TAG ++ [48, 48, 48, 48, 48, 50, 0, 0]) = some (.data 2) := by
  decide
example : Reply.fromRaw (OKAY_TAG ++ strBytes "1.0") = some (.okay "1.0") := by decide
example : Reply.fromRaw [79, 75] = none := by decide

/-! ### Command encoding

`format!("{:08x}", data.len())`: lowercase hexadecimal, zero-padded to a
minimum width of 8 digits. -/

/-- Lowercase hexadecimal digit for `d < 16`. -/
def hexChar (d : Nat) : Char := Char.ofNat (if d < 10 then 48 + d else 87 + d)

/-- Most-significant-first hexadecimal digits of `n` (empty for 0), with
structural fuel.  Fuel 16 covers every 64-bit `usize`, the whole domain
of the Rust formatter. -/
def hexDigitsAux : Nat → Nat → List Char
  | 0, _ => []
  | fuel + 1, n => if n = 0 then [] else hexDigitsAux fuel (n / 16) ++ [hexChar (n % 16)]

/-- The digits `{:x}` prints for `n` (a 64-bit `usize`). -/
def hexStr (n : Nat) : List Char := if n = 0 then ['0'] else hexDigitsAux 16 n

/-- `format!("{:08x}", n)`: pad `hexStr n` with leading zeros to width 8. -/
def hex8 (n : Nat) : List Char :=
  let ds := hexStr n
  List.replicate (8 - ds.length) '0' ++ ds

/-- The `download:` command built for a payload of length `n`
(`DOWNLOAD_CMD` followed by the bytes of `format!("{:08x}", n)`). -/
def downloadCmdOfLen (n : Nat) : List Nat := strBytes "download:" ++ utf8Encode (hex8 n)

example : hex8 512 = ['0', '0', '0', '0', '0', '2', '0', '0'] := by decide
example : hex8 0 = ['0', '0', '0', '0', '0', '0', '0', '0'] := by decide

/-! ### The scripted transport

`fb_send` talks to an abstract `Read + Write` transport.  A `World`
scripts the outcome of each successive `write_all` and `read` call and
logs the payloads written and the lines printed to stdout. -/

/-- Classification of an `std::io::Error` as seen by `fb_send`. -/
inductive ErrKind
  | timedOut
  | other
deriving DecidableEq

/-- An I/O error: its kind and its `to_string()` rendering. -/
structure IOError where
  kind : ErrKind
  msg : String
deriving DecidableEq

/-- Outcome of one transport `read` call: the bytes delivered into the
reply buffer, or an error. -/
inductive ReadEvent
  | ok (bytes : List Nat)
  | err (e : IOError)
deriving DecidableEq

/-- The scripted transport state. -/
structure World where
  /-- Outcome of each successive `write_all` call (`none` = success). -/
  writeScript : List (Option IOError)
  /-- Outcome of each successive `read` call. -/
  readScript : List ReadEvent
  /-- Log of the payloads handed to `write_all`, in order. -/
  writes : List (List Nat)
  /-- Log of the messages printed with `println!`, in order. -/
  prints : List String
deriving DecidableEq

/-- Outcome of an engine operation: `FbResult` success or error, a Rust
panic, or blocking forever (the read loop exhausting its script). -/
inductive Out (α : Type)
  | ok (a : α)
  | err (msg : String)
  | panic
  | hang
deriving DecidableEq

/-- `io.write_all(payload).map_err(|err| err.to_string())`: consume the
next scripted write outcome; the call is always logged. -/
def writeAll (w : World) (payload : List Nat) : Option String × World :=
  let w1 : World := { w with writes := w.writes ++ [payload] }
  match w.writeScript with
  | [] => (none, w1)
  | none :: rest => (none, { w1 with writeScript := rest })
  | some e :: rest => (some e.msg, { w1 with writeScript := rest })

/-- The read loop of `fb_send`: read into a fresh 512-byte buffer; on
success decode `buff[..received]` (a short buffer panics in
`split_at`); a `TimedOut` error retries; any other error is returned as
an `Err` string.  An exhausted script means the loop blocks forever. -/
def readLoop : List ReadEvent → Out Reply × List ReadEvent
  | [] => (.hang, [])
  | .ok bytes :: rest =>
    match Reply.fromRaw bytes with
    | some r => (.ok r, rest)
    | none => (.panic, rest)
  | .err e :: rest =>
    match e.kind with
    | .timedOut => readLoop rest
    | .other => (.err e.msg, rest)

/-- `fn fb_send<T: Fastboot>(io, payload) -> FbResult<Reply>`. -/
def fb_send (w : World) (payload : List Nat) : Out Reply × World :=
  match writeAll w payload with
  | (some m, w1) => (.err m, w1)
  | (none, w1) =>
    let (r, rest) := readLoop w1.readScript
    (r, { w1 with readScript := rest })

/-! ### The protocol operations (`trait Fastboot`) -/

namespace Fastboot

/-- `Fastboot::getvar`. -/
def getvar (w : World) (var : String) : Out String × World :=
  match fb_send w (strBytes "getvar:" ++ strBytes var) with
  | (.ok (.okay v), w1) => (.ok v, w1)
  | (.ok (.fail m), w1) => (.err m, w1)
  | (.ok _, w1) => (.err "Unknown failure", w1)
  | (.err m, w1) => (.err m, w1)
  | (.panic, w1) => (.panic, w1)
  | (.hang, w1) => (.hang, w1)

/-- Second stage of `Fastboot::download`: interpretation of the reply to
the raw-payload exchange (`Okay` succeeds, `Info` is printed and then
returned as an error, everything else fails). -/
def download2 (p : Out Reply × World) : Out Unit × World :=
  match p with
  | (.ok (.okay _), w2) => (.ok (), w2)
  | (.ok (.fail m), w2) => (.err m, w2)
  | (.ok (.info m), w2) => (.err m, { w2 with prints := w2.prints ++ [m] })
  | (.ok (.data _), w2) => (.err "Unknown failure", w2)
  | (.err m, w2) => (.err m, w2)
  | (.panic, w2) => (.panic, w2)
  | (.hang, w2) => (.hang, w2)

/-- `Fastboot::download`: announce the payload length, then send the raw
payload only when the device acknowledges exactly that length. -/
def download (w : World) (data : List Nat) : Out Unit × World :=
  match fb_send w (downloadCmdOfLen data.length) with
  | (.ok (.data size), w1) =>
    if size = data.length then download2 (fb_send w1 data)
    else (.err "Unknown failure", w1)
  | (.ok (.fail m), w1) => (.err m, w1)
  | (.ok (.okay _), w1) => (.err "Unknown failure", w1)
  | (.ok (.info _), w1) => (.err "Unknown failure", w1)
  | (.err m, w1) => (.err m, w1)
  | (.panic, w1) => (.panic, w1)
  | (.hang, w1) => (.hang, w1)

/-- `Fastboot::flash`. -/
def flash (w : World) (partition : String) : Out Unit × World :=
  match fb_send w (strBytes "flash:" ++ strBytes partition) with
  | (.ok (.okay _), w1) => (.ok (), w1)
  | (.ok (.fail m), w1) => (.err m, w1)
  | (.ok (.info m), w1) => (.err m, { w1 with prints := w1.prints ++ [m] })
  | (.ok (.data _), w1) => (.err "Unknown failure", w1)
  | (.err m, w1) => (.err m, w1)
  | (.panic, w1) => (.panic, w1)
  | (.hang, w1) => (.hang, w1)

/-- `Fastboot::erase`. -/
def erase (w : World) (partition : String) : Out Unit × World :=
  match fb_send w (strBytes "erase:" ++ strBytes partition) with
  | (.ok (.okay _), w1) => (.ok (), w1)
  | (.ok (.fail m), w1) => (.err m, w1)
  | (.ok _, w1) => (.err "Unknown failure", w1)
  | (.err m, w1) => (.err m, w1)
  | (.panic, w1) => (.panic, w1)
  | (.hang, w1) => (.hang, w1)

/-- `Fastboot::continue_boot`. -/
def continue_boot (w : World) : Out Unit × World :=
  match fb_send w (strBytes "continue") with
  | (.ok (.okay _), w1) => (.ok (), w1)
  | (.ok (.fail m), w1) => (.err m, w1)
  | (.ok _, w1) => (.err "Unknown failure", w1)
  | (.err m, w1) => (.err m, w1)
  | (.panic, w1) => (.panic, w1)
  | (.hang, w1) => (.hang, w1)

/-- `Fastboot::reboot`. -/
def reboot (w : World) : Out Unit × World :=
  match fb_send w (strBytes "reboot") with
  | (.ok (.okay _), w1) => (.ok (), w1)
  | (.ok (.fail m), w1) => (.err m, w1)
  | (.ok _, w1) => (.err "Unknown failure", w1)
  | (.err m, w1) => (.err m, w1)
  | (.panic, w1) => (.panic, w1)
  | (.hang, w1) => (.hang, w1)

/-- `Fastboot::reboot_bootloader`. -/
def reboot_bootloader (w : World) : Out Unit × World :=
  match fb_send w (strBytes "reboot-bootloader") with
  | (.ok (.okay _), w1) => (.ok (), w1)
  | (.ok (.fail m), w1) => (.err m, w1)
  | (.ok _, w1) => (.err "Unknown failure", w1)
  | (.err m, w1) => (.err m, w1)
  | (.panic, w1) => (.panic, w1)
  | (.hang, w1) => (.hang, w1)

end Fastboot

/-! ### The USB transport adapter's read (`impl Read for UsbDevice`) -/

/-- Outcome of the bulk-IN transfer raced against the 3-second timer. -/
inductive UsbComp
  | ok (data : List Nat)
  | errStatus (msg : String)
  | timedOut
deriving DecidableEq

/-- Outcome of `UsbDevice::read`. -/
inductive UsbReadResult
  | ok (n : Nat)
  | errTimedOut
  | errOther (msg : String)
  | panic
deriving DecidableEq

/-- `UsbDevice::read(buf)`: an empty `buf` returns 0 without a transfer;
otherwise the scripted completion decides the outcome.  On success with
`n` bytes the code runs `buf[..n].copy_from_slice(&comp.data)`, which
panics when `n > buf.len()`; the returned list is the updated buffer. -/
def usbRead (buf : List Nat) (comp : UsbComp) : UsbReadResult × List Nat :=
  if buf.isEmpty then (.ok 0, buf)
  else
    match comp with
    | .timedOut => (.errTimedOut, buf)
    | .errStatus m => (.errOther m, buf)
    | .ok data =>
      if data.length ≤ buf.length then (.ok data.length, data ++ buf.drop data.length)
      else (.panic, buf)

/-! ### Basic lemmas about the exchange primitive -/

/-- Every `fb_send` logs exactly one write, its payload. -/
theorem fb_send_writes (w : World) (p : List Nat) :
    ((fb_send w p).2).writes = w.writes ++ [p] := by
  unfold fb_send writeAll
  rcases hws : w.writeScript with _ | ⟨o, rest⟩
  · simp
  · rcases o <;> simp

/-- `fb_send` never prints. -/
theorem fb_send_prints (w : World) (p : List Nat) :
    ((fb_send w p).2).prints = w.prints := by
  unfold fb_send writeAll
  rcases hws : w.writeScript with _ | ⟨o, rest⟩
  · simp
  · rcases o <;> simp

/-- The read loop skips any run of timeout-classified read errors. -/
theorem readLoop_timeouts (ms : List String) (rest : List ReadEvent) :
    readLoop (ms.map (fun m => ReadEvent.err ⟨ErrKind.timedOut, m⟩) ++ rest) = readLoop rest := by
  induction ms with
  | nil => rfl
  | cons m ms ih => simpa [readLoop] using ih

/-- When the scripted write succeeds, `fb_send` is the read loop run on
the read script, with the payload logged. -/
theorem fb_send_eq_readLoop (w : World) (p : List Nat) (hw : w.writeScript = []) :
    fb_send w p =
      ((readLoop w.readScript).1,
        { w with readScript := (readLoop w.readScript).2, writes := w.writes ++ [p] }) := by
  obtain ⟨ws, rs, wr, pr⟩ := w
  simp only at hw
  subst hw
  simp [fb_send, writeAll]

/-- Decoding fails (i.e. `split_at(4)` panics) exactly on buffers
shorter than 4 bytes. -/
theorem fromRaw_none_iff (bs : List Nat) : Reply.fromRaw bs = none ↔ bs.length < 4 := by
  unfold Reply.fromRaw
  by_cases h : bs.length < 4
  · simp [h]
  · simp only [if_neg h, h, iff_false]
    split_ifs with h1 h2 h3 h4 h5
    · exact h1.elim
    · simp
    · simp
    · simp
    · rcases hfr : fromStrRadix16 (trimNul (utf8Lossy (List.drop 4 bs))) <;> simp [hfr]
    · simp

end Fb

namespace Fb

/-- C3: with all write outcomes successful, `fb_send` skips any number of
timeout-classified read errors and returns the decoded reply of the
first successful read; a non-timeout read error aborts with that
error's message; and a failing write — of either kind, timeout
included — aborts immediately with its message, consuming no read
event. -/
theorem fb_send_retries_timeouts_aborts_on_fatal :
    (∀ (w : World) (payload : List Nat) (ts : List String) (bytes : List Nat)
      (rest : List ReadEvent) (r : Reply),
      w.writeScript = [] →
      w.readScript =
        ts.map (fun m => ReadEvent.err ⟨ErrKind.timedOut, m⟩) ++ ReadEvent.ok bytes :: rest →
      Reply.fromRaw bytes = some r →
      fb_send w payload =
        (.ok r, { w with readScript := rest, writes := w.writes ++ [payload] }))
    ∧ (∀ (w : World) (payload : List Nat) (ts : List String) (m : String)
      (rest : List ReadEvent),
      w.writeScript = [] →
      w.readScript =
        ts.map (fun s => ReadEvent.err ⟨ErrKind.timedOut, s⟩)
          ++ ReadEvent.err ⟨ErrKind.other, m⟩ :: rest →
      fb_send w payload =
        (.err m, { w with readScript := rest, writes := w.writes ++ [payload] }))
    ∧ (∀ (w : World) (payload : List Nat) (e : IOError) (ws : List (Option IOError)),
      w.writeScript = some e :: ws →
      fb_send w payload =
        (.err e.msg, { w with writeScript := ws, writes := w.writes ++ [payload] })) := by
  refine ⟨?_, ?_, ?_⟩
  · intro w payload ts bytes rest r hw hr hdec
    have h1 : readLoop w.readScript = (.ok r, rest) := by
      rw [hr, readLoop_timeouts]
      simp [readLoop, hdec]
    rw [fb_send_eq_readLoop w payload hw, h1]
  · intro w payload ts m rest hw hr
    have h1 : readLoop w.readScript = (.err m, rest) := by
      rw [hr, readLoop_timeouts]
      simp [readLoop]
    rw [fb_send_eq_readLoop w payload hw, h1]
  · intro w payload e ws hw
    obtain ⟨ws0, rs, wr, pr⟩ := w
    simp only at hw
    subst hw
    simp [fb_send, writeAll]

/-- Witness for C3: a read that times out twice and then delivers `OKAY`
yields the decoded reply; a write that times out fails immediately. -/
theorem fb_send_retries_timeouts_aborts_on_fatal_witness :
    fb_send
        ⟨[], [ReadEvent.err ⟨ErrKind.timedOut, "timed out"⟩,
          ReadEvent.err ⟨ErrKind.timedOut, "timed out"⟩, ReadEvent.ok OKAY_TAG], [], []⟩
        [1, 2]
      = (.ok (Reply.okay ""), ⟨[], [], [[1, 2]], []⟩)
    ∧ fb_send ⟨[some ⟨ErrKind.timedOut, "timed out"⟩], [ReadEvent.ok OKAY_TAG], [], []⟩ [1, 2]
      = (.err "timed out", ⟨[], [ReadEvent.ok OKAY_TAG], [[1, 2]], []⟩) :=
  ⟨fb_send_retries_timeouts_aborts_on_fatal.1
      ⟨[], [ReadEvent.err ⟨ErrKind.timedOut, "timed out"⟩,
        ReadEvent.err ⟨ErrKind.timedOut, "timed out"⟩, ReadEvent.ok OKAY_TAG], [], []⟩
      [1, 2] ["timed out", "timed out"] OKAY_TAG [] (Reply.okay "") rfl rfl (by decide),
    fb_send_retries_timeouts_aborts_on_fatal.2.2
      ⟨[some ⟨ErrKind.timedOut, "timed out"⟩], [ReadEvent.ok OKAY_TAG], [], []⟩
      [1, 2] ⟨ErrKind.timedOut, "timed out"⟩ [] rfl⟩

/-- C9: a successful transport read delivering fewer than 4 bytes makes
`fb_send` panic at the decoder's 4-byte split instead of returning an
error; decoding fails in exactly that case, so totality of the exchange
primitive needs every successful read to deliver at least 4 bytes. -/
theorem fb_send_panics_on_short_read :
    (∀ (w : World) (payload bytes : List Nat) (rest : List ReadEvent),
      w.writeScript = [] →
      w.readScript = ReadEvent.ok bytes :: rest →
      bytes.length < 4 →
      fb_send w payload =
        (.panic, { w with readScript := rest, writes := w.writes ++ [payload] }))
    ∧ (∀ bs : List Nat, Reply.fromRaw bs = none ↔ bs.length < 4) := by
  constructor
  · intro w payload bytes rest hw hr hlen
    have hdec : Reply.fromRaw bytes = none := (fromRaw_none_iff bytes).2 hlen
    have h1 : readLoop w.readScript = (.panic, rest) := by
      rw [hr]
      simp [readLoop, hdec]
    rw [fb_send_eq_readLoop w payload hw, h1]
  · exact fromRaw_none_iff

/-- Witness for C9: a read delivering 0 bytes makes `fb_send` panic. -/
theorem fb_send_panics_on_short_read_witness :
    fb_send ⟨[], [ReadEvent.ok []], [], []⟩ [1] = (.panic, ⟨[], [], [[1]], []⟩) :=
  fb_send_panics_on_short_read.1 ⟨[], [ReadEvent.ok []], [], []⟩ [1] [] [] rfl rfl
    (by decide)

/-- Counterexample for C4: when the hexadecimal parse of a `DATA` payload
fails, the decoder's message is `"DATA: Failed to decode size"` (capital
F), not the claimed `"DATA: failed to decode size"`. -/
theorem data_decode_fail_msg_cex :
    Reply.fromRaw (DATA_TAG ++ strBytes "zz") = some (.fail "DATA: Failed to decode size")
    ∧ Reply.fromRaw (DATA_TAG ++ strBytes "zz")
      ≠ some (.fail "DATA: failed to decode size") := by
  decide

/-- C4 (amended): on every buffer of length ≥ 4 tagged `DATA`, decoding
never fails or panics: it NUL-trims the lossily decoded payload and
parses it as hexadecimal, returning `Data(size)` on success and exactly
`Fail("DATA: Failed to decode size")` on parse failure. -/
theorem data_decode_total (bs : List Nat) (h4 : 4 ≤ bs.length)
    (hd : List.take 4 bs = DATA_TAG) :
    (∃ size, Reply.fromRaw bs = some (.data size)
      ∧ fromStrRadix16 (trimNul (utf8Lossy (List.drop 4 bs))) = some size)
    ∨ (Reply.fromRaw bs = some (.fail "DATA: Failed to decode size")
      ∧ fromStrRadix16 (trimNul (utf8Lossy (List.drop 4 bs))) = none) := by
  have hlt : ¬bs.length < 4 := not_lt.mpr h4
  simp only [Reply.fromRaw, if_neg hlt, hd]
  rw [if_pos trivial]
  rcases hfr : fromStrRadix16 (trimNul (utf8Lossy (List.drop 4 bs))) with _ | size
  · exact Or.inr ⟨rfl, rfl⟩
  · exact Or.inl ⟨size, rfl, rfl⟩

/-- Witness for C4 at the buffer `DATA` ++ `"00000200"`. -/
theorem data_decode_total_witness :
    (∃ size, Reply.fromRaw (DATA_TAG ++ strBytes "00000200") = some (.data size)
      ∧ fromStrRadix16 (trimNul (utf8Lossy (List.drop 4 (DATA_TAG ++ strBytes "00000200"))))
        = some size)
    ∨ (Reply.fromRaw (DATA_TAG ++ strBytes "00000200")
        = some (.fail "DATA: Failed to decode size")
      ∧ fromStrRadix16 (trimNul (utf8Lossy (List.drop 4 (DATA_TAG ++ strBytes "00000200"))))
        = none) :=
  data_decode_total (DATA_TAG ++ strBytes "00000200") (by decide) (by decide)

/-- Counterexample for C5: the NUL-padded payload `"000002\0\0"` decodes
to size 2 (`0x000002`), not 512. -/
theorem data_padded_size_cex :
    Reply.fromRaw (DATA_TAG ++ [48, 48, 48, 48, 48, 50, 0, 0]) = some (.data 2)
    ∧ Reply.fromRaw (DATA_TAG ++ [48, 48, 48, 48, 48, 50, 0, 0]) ≠ some (.data 512) := by
  decide

/-- C5 (amended): `DATA` with payload `"00000200"` decodes to size 512;
the NUL-padded payload `"000002\0\0"` decodes to size 2 (the NULs are
stripped and the remaining digits parsed as hexadecimal); a non-hex
payload yields a `Fail` variant, never a decode failure. -/
theorem data_decode_examples :
    Reply.fromRaw (DATA_TAG ++ strBytes "00000200") = some (.data 512)
    ∧ Reply.fromRaw (DATA_TAG ++ [48, 48, 48, 48, 48, 50, 0, 0]) = some (.data 2)
    ∧ Reply.fromRaw (DATA_TAG ++ strBytes "zzzzzzzz")
      = some (.fail "DATA: Failed to decode size") := by
  decide

/-- Does a reply fall in the catch-all arm of the single-reply
operations (neither `Okay` nor `Fail`)? -/
def notOkayFail : Reply → Bool
  | .okay _ => false
  | .fail _ => false
  | _ => true

/-- C6: `getvar` sends `getvar:<name>` and maps `Okay(value)` to success
`value`, `Fail(msg)` to error `msg` (never a success), and any other
reply to the generic failure. -/
theorem getvar_maps_replies :
    (∀ (w : World) (var v : String) (w1 : World),
      fb_send w (strBytes "getvar:" ++ strBytes var) = (.ok (.okay v), w1) →
      Fastboot.getvar w var = (.ok v, w1))
    ∧ (∀ (w : World) (var m : String) (w1 : World),
      fb_send w (strBytes "getvar:" ++ strBytes var) = (.ok (.fail m), w1) →
      Fastboot.getvar w var = (.err m, w1) ∧ ∀ v, (Fastboot.getvar w var).1 ≠ .ok v)
    ∧ (∀ (w : World) (var : String) (r : Reply) (w1 : World),
      fb_send w (strBytes "getvar:" ++ strBytes var) = (.ok r, w1) →
      notOkayFail r = true →
      Fastboot.getvar w var = (.err "Unknown failure", w1))
    ∧ (∀ (w : World) (var : String),
      ((Fastboot.getvar w var).2).writes = w.writes ++ [strBytes "getvar:" ++ strBytes var]) := by
  refine ⟨?_, ?_, ?_, ?_⟩
  · intro w var v w1 h
    unfold Fastboot.getvar
    rw [h]
  · intro w var m w1 h
    unfold Fastboot.getvar
    rw [h]
    exact ⟨rfl, by simp⟩
  · intro w var r w1 h hr
    unfold Fastboot.getvar
    rw [h]
    cases r with
    | okay v => exact absurd hr (by simp [notOkayFail])
    | fail m => exact absurd hr (by simp [notOkayFail])
    | data n => rfl
    | info m => rfl
  · intro w var
    have hw := fb_send_writes w (strBytes "getvar:" ++ strBytes var)
    unfold Fastboot.getvar
    rcases hfs : fb_send w (strBytes "getvar:" ++ strBytes var) with ⟨o, w1⟩
    rw [hfs] at hw
    cases o with
    | ok r => cases r <;> exact hw
    | err m => exact hw
    | panic => exact hw
    | hang => exact hw

/-- Witness for C6: `getvar:version` answered `Okay("1.0")` returns
`"1.0"`, and answered `Fail("nope")` returns that error. -/
theorem getvar_maps_replies_witness :
    Fastboot.getvar ⟨[], [ReadEvent.ok (OKAY_TAG ++ strBytes "1.0")], [], []⟩ "version"
      = (.ok "1.0", ⟨[], [], [strBytes "getvar:" ++ strBytes "version"], []⟩) :=
  getvar_maps_replies.1 ⟨[], [ReadEvent.ok (OKAY_TAG ++ strBytes "1.0")], [], []⟩
    "version" "1.0" ⟨[], [], [strBytes "getvar:" ++ strBytes "version"], []⟩ (by decide)

/-- When the first exchange acknowledges with `Data(n)`, `download`
reduces to the size guard and, on success, the second exchange. -/
theorem download_eq_of_data (w : World) (data : List Nat) (n : Nat) (w1 : World)
    (h : fb_send w (downloadCmdOfLen data.length) = (.ok (.data n), w1)) :
    Fastboot.download w data =
      if n = data.length then Fastboot.download2 (fb_send w1 data)
      else (.err "Unknown failure", w1) := by
  unfold Fastboot.download
  rw [h]

/-- The second stage of `download` never removes writes from the log. -/
theorem download2_writes (p : Out Reply × World) :
    ((Fastboot.download2 p).2).writes = ((p.2).writes) := by
  rcases p with ⟨o, w2⟩
  cases o with
  | ok r => cases r <;> rfl
  | err m => rfl
  | panic => rfl
  | hang => rfl

/-- When the first reply is not a `Data` acknowledgement, `download`
stops after the first exchange. -/
theorem download_snd_of_first (w : World) (data : List Nat) (o : Out Reply) (w1 : World)
    (hfs : fb_send w (downloadCmdOfLen data.length) = (o, w1))
    (ho : ∀ n, o ≠ .ok (.data n)) :
    (Fastboot.download w data).2 = w1 := by
  unfold Fastboot.download
  rw [hfs]
  cases o with
  | ok r =>
    cases r with
    | data n => exact absurd rfl (ho n)
    | okay s => rfl
    | fail m => rfl
    | info m => rfl
  | err m => rfl
  | panic => rfl
  | hang => rfl

/-- C10: on an `Info` or `Data` reply, `erase`, `continue_boot`,
`reboot` and `reboot_bootloader` all return the error
`"Unknown failure"`; an `Info` reply is never a success there and its
message is neither surfaced nor printed. -/
theorem single_reply_ops_generic_failure :
    (∀ (w : World) (part : String) (r : Reply) (w1 : World),
      fb_send w (strBytes "erase:" ++ strBytes part) = (.ok r, w1) →
      notOkayFail r = true →
      Fastboot.erase w part = (.err "Unknown failure", w1) ∧ w1.prints = w.prints)
    ∧ (∀ (w : World) (r : Reply) (w1 : World),
      fb_send w (strBytes "continue") = (.ok r, w1) →
      notOkayFail r = true →
      Fastboot.continue_boot w = (.err "Unknown failure", w1) ∧ w1.prints = w.prints)
    ∧ (∀ (w : World) (r : Reply) (w1 : World),
      fb_send w (strBytes "reboot") = (.ok r, w1) →
      notOkayFail r = true →
      Fastboot.reboot w = (.err "Unknown failure", w1) ∧ w1.prints = w.prints)
    ∧ (∀ (w : World) (r : Reply) (w1 : World),
      fb_send w (strBytes "reboot-bootloader") = (.ok r, w1) →
      notOkayFail r = true →
      Fastboot.reboot_bootloader w = (.err "Unknown failure", w1) ∧ w1.prints = w.prints) := by
  refine ⟨?_, ?_, ?_, ?_⟩
  · intro w part r w1 h hr
    have hp := fb_send_prints w (strBytes "erase:" ++ strBytes part)
    rw [h] at hp
    unfold Fastboot.erase
    rw [h]
    cases r with
    | okay v => exact absurd hr (by simp [notOkayFail])
    | fail m => exact absurd hr (by simp [notOkayFail])
    | data n => exact ⟨rfl, hp⟩
    | info m => exact ⟨rfl, hp⟩
  · intro w r w1 h hr
    have hp := fb_send_prints w (strBytes "continue")
    rw [h] at hp
    unfold Fastboot.continue_boot
    rw [h]
    cases r with
    | okay v => exact absurd hr (by simp [notOkayFail])
    | fail m => exact absurd hr (by simp [notOkayFail])
    | data n => exact ⟨rfl, hp⟩
    | info m => exact ⟨rfl, hp⟩
  · intro w r w1 h hr
    have hp := fb_send_prints w (strBytes "reboot")
    rw [h] at hp
    unfold Fastboot.reboot
    rw [h]
    cases r with
    | okay v => exact absurd hr (by simp [notOkayFail])
    | fail m => exact absurd hr (by simp [notOkayFail])
    | data n => exact ⟨rfl, hp⟩
    | info m => exact ⟨rfl, hp⟩
  · intro w r w1 h hr
    have hp := fb_send_prints w (strBytes "reboot-bootloader")
    rw [h] at hp
    unfold Fastboot.reboot_bootloader
    rw [h]
    cases r with
    | okay v => exact absurd hr (by simp [notOkayFail])
    | fail m => exact absurd hr (by simp [notOkayFail])
    | data n => exact ⟨rfl, hp⟩
    | info m => exact ⟨rfl, hp⟩

/-- Witness for C10: `erase` answered `Info("hi")` returns the generic
failure and prints nothing. -/
theorem single_reply_ops_generic_failure_witness :
    Fastboot.erase ⟨[], [ReadEvent.ok (INFO_TAG ++ strBytes "hi")], [], []⟩ "boot"
      = (.err "Unknown failure", ⟨[], [], [strBytes "erase:" ++ strBytes "boot"], []⟩)
    ∧ (⟨[], [], [strBytes "erase:" ++ strBytes "boot"], []⟩ : World).prints = [] :=
  single_reply_ops_generic_failure.1 ⟨[], [ReadEvent.ok (INFO_TAG ++ strBytes "hi")], [], []⟩
    "boot" (Reply.info "hi") ⟨[], [], [strBytes "erase:" ++ strBytes "boot"], []⟩
    (by decide) (by decide)

/-- C1: when the first exchange of `download` acknowledges a size
different from the payload length, `download` fails with
`"Unknown failure"` and the transport has seen exactly one write — the
`download:` command; the raw payload is never sent. -/
theorem download_mismatch_no_payload (w : World) (data : List Nat) (m : Nat) (w1 : World)
    (h : fb_send w (downloadCmdOfLen data.length) = (.ok (.data m), w1))
    (hm : m ≠ data.length) :
    Fastboot.download w data = (.err "Unknown failure", w1)
    ∧ w1.writes = w.writes ++ [downloadCmdOfLen data.length] := by
  have hw := fb_send_writes w (downloadCmdOfLen data.length)
  rw [h] at hw
  exact ⟨by rw [download_eq_of_data w data m w1 h, if_neg hm], hw⟩

/-- Witness for C1: a device acknowledging 1 byte for an empty payload. -/
theorem download_mismatch_no_payload_witness :
    Fastboot.download ⟨[], [ReadEvent.ok (DATA_TAG ++ strBytes "00000001")], [], []⟩ []
      = (.err "Unknown failure", ⟨[], [], [downloadCmdOfLen 0], []⟩)
    ∧ (⟨[], [], [downloadCmdOfLen 0], []⟩ : World).writes = [] ++ [downloadCmdOfLen 0] :=
  download_mismatch_no_payload ⟨[], [ReadEvent.ok (DATA_TAG ++ strBytes "00000001")], [], []⟩
    [] 1 ⟨[], [], [downloadCmdOfLen 0], []⟩ (by decide) (by decide)

/-- C2: when the first exchange acknowledges exactly the payload length,
`download` sends the payload in a second exchange; it succeeds exactly
when that exchange's reply is `Okay`, and a second-stage `Fail(msg)` or
`Info(msg)` reply makes it return the error `msg`. -/
theorem download_second_stage (w : World) (data : List Nat) (n : Nat) (w1 : World)
    (r2 : Reply) (w2 : World)
    (h1 : fb_send w (downloadCmdOfLen data.length) = (.ok (.data n), w1))
    (hn : n = data.length)
    (h2 : fb_send w1 data = (.ok r2, w2)) :
    ((Fastboot.download w data).1 = .ok () ↔ ∃ s, r2 = .okay s)
    ∧ (∀ m, r2 = .fail m → (Fastboot.download w data).1 = .err m)
    ∧ (∀ m, r2 = .info m → (Fastboot.download w data).1 = .err m)
    ∧ w2.writes = w.writes ++ [downloadCmdOfLen data.length, data] := by
  subst hn
  have ha := fb_send_writes w (downloadCmdOfLen data.length)
  rw [h1] at ha
  have hb := fb_send_writes w1 data
  rw [h2] at hb
  have hw2 : w2.writes = w.writes ++ [downloadCmdOfLen data.length, data] := by
    rw [hb, ha]
    simp
  have hred := download_eq_of_data w data data.length w1 h1
  rw [if_pos rfl, h2] at hred
  refine ⟨?_, ?_, ?_, hw2⟩
  · rw [hred]
    cases r2 <;> simp [Fastboot.download2]
  · intro m hm
    subst hm
    rw [hred]
    rfl
  · intro m hm
    subst hm
    rw [hred]
    rfl

/-- Witness for C2: payload `[97]`, device answering `Data(1)` then
`Okay`, gives overall success. -/
theorem download_second_stage_witness :
    (Fastboot.download
        ⟨[], [ReadEvent.ok (DATA_TAG ++ strBytes "00000001"), ReadEvent.ok OKAY_TAG], [], []⟩
        [97]).1 = .ok () :=
  ((download_second_stage
      ⟨[], [ReadEvent.ok (DATA_TAG ++ strBytes "00000001"), ReadEvent.ok OKAY_TAG], [], []⟩
      [97] 1 ⟨[], [ReadEvent.ok OKAY_TAG], [downloadCmdOfLen 1], []⟩ (Reply.okay "")
      ⟨[], [], [downloadCmdOfLen 1, [97]], []⟩ (by decide) rfl (by decide)).1).mpr ⟨"", rfl⟩

/-! ### Arithmetic facts about the 8-hex-digit length encoding -/

/-- Is `c` one of `0`–`9`, `a`–`f`? -/
def isLowerHexDigit (c : Char) : Bool :=
  decide ((48 ≤ c.toNat ∧ c.toNat ≤ 57) ∨ (97 ≤ c.toNat ∧ c.toNat ≤ 102))

theorem hexChar_isLowerHex (d : Nat) (h : d < 16) : isLowerHexDigit (hexChar d) = true := by
  interval_cases d <;> decide

theorem hexVal?_hexChar (d : Nat) (h : d < 16) : hexVal? (hexChar d) = some d := by
  interval_cases d <;> decide

/-- Value of a most-significant-first hexadecimal digit string. -/
def digitsVal : List Char → Nat
  | [] => 0
  | c :: cs => (hexVal? c).getD 0 * 16 ^ cs.length + digitsVal cs

theorem digitsVal_append_singleton (xs : List Char) (c : Char) :
    digitsVal (xs ++ [c]) = digitsVal xs * 16 + (hexVal? c).getD 0 := by
  induction xs with
  | nil => simp [digitsVal]
  | cons x xs ih =>
    simp [digitsVal, ih, List.length_append, pow_succ]
    ring

theorem hexDigitsAux_length_le (fuel n k : Nat) (h : n < 16 ^ k) :
    (hexDigitsAux fuel n).length ≤ k := by
  induction fuel generalizing n k with
  | zero => simp [hexDigitsAux]
  | succ fuel ih =>
    by_cases h0 : n = 0
    · simp [hexDigitsAux, h0]
    · rcases k with _ | k
      · simp at h
        omega
      · have hdiv : n / 16 < 16 ^ k := by
          rw [Nat.div_lt_iff_lt_mul (by norm_num)]
          calc n < 16 ^ (k + 1) := h
            _ = 16 ^ k * 16 := by rw [pow_succ]
        have := ih (n / 16) k hdiv
        simp only [hexDigitsAux, if_neg h0, List.length_append, List.length_cons,
          List.length_nil]
        omega

theorem hexDigitsAux_spec (fuel : Nat) :
    ∀ n, n < 16 ^ fuel →
      (∀ c ∈ hexDigitsAux fuel n, isLowerHexDigit c = true ∧ (hexVal? c).isSome)
      ∧ digitsVal (hexDigitsAux fuel n) = n := by
  induction fuel with
  | zero =>
    intro n h
    have h0 : n = 0 := by simpa using h
    subst h0
    simp [hexDigitsAux, digitsVal]
  | succ fuel ih =>
    intro n h
    by_cases h0 : n = 0
    · subst h0
      simp [hexDigitsAux, digitsVal]
    · have hdiv : n / 16 < 16 ^ fuel := by
        rw [Nat.div_lt_iff_lt_mul (by norm_num)]
        calc n < 16 ^ (fuel + 1) := h
          _ = 16 ^ fuel * 16 := by rw [pow_succ]
      obtain ⟨hall, hval⟩ := ih (n / 16) hdiv
      have hmod : n % 16 < 16 := Nat.mod_lt _ (by norm_num)
      simp only [hexDigitsAux, if_neg h0]
      constructor
      · intro c hc
        rcases List.mem_append.mp hc with hc | hc
        · exact hall c hc
        · have hceq : c = hexChar (n % 16) := by simpa using hc
          subst hceq
          exact ⟨hexChar_isLowerHex _ hmod, by rw [hexVal?_hexChar _ hmod]; rfl⟩
      · rw [digitsVal_append_singleton, hval, hexVal?_hexChar _ hmod]
        simp only [Option.getD_some]
        omega

theorem hexStr_spec (n : Nat) (h : n < 16 ^ 16) :
    (∀ c ∈ hexStr n, isLowerHexDigit c = true ∧ (hexVal? c).isSome)
    ∧ digitsVal (hexStr n) = n := by
  unfold hexStr
  by_cases h0 : n = 0
  · subst h0
    refine ⟨?_, by decide⟩
    intro c hc
    simp at hc
    subst hc
    exact ⟨by decide, by decide⟩
  · rw [if_neg h0]
    exact hexDigitsAux_spec 16 n h

theorem hexStr_length_le (n k : Nat) (h : n < 16 ^ k) (hk : 1 ≤ k) :
    (hexStr n).length ≤ k := by
  unfold hexStr
  by_cases h0 : n = 0
  · simpa [h0] using hk
  · rw [if_neg h0]
    exact hexDigitsAux_length_le 16 n k h

theorem two_pow_32_eq : (2 : Nat) ^ 32 = 16 ^ 8 := by norm_num

theorem hex8_length (n : Nat) (h : n < 2 ^ 32) : (hex8 n).length = 8 := by
  have h16 : n < 16 ^ 8 := two_pow_32_eq ▸ h
  have hL : (hexStr n).length ≤ 8 := hexStr_length_le n 8 h16 (by norm_num)
  unfold hex8
  simp only [List.length_append, List.length_replicate]
  omega

theorem hex8_digits (n : Nat) (h : n < 2 ^ 32) :
    ∀ c ∈ hex8 n, isLowerHexDigit c = true ∧ (hexVal? c).isSome := by
  have h16 : n < 16 ^ 16 := lt_of_lt_of_le h (by norm_num)
  intro c hc
  unfold hex8 at hc
  rcases List.mem_append.mp hc with hc | hc
  · have hceq : c = '0' := List.eq_of_mem_replicate hc
    subst hceq
    exact ⟨by decide, by decide⟩
  · exact (hexStr_spec n h16).1 c hc

theorem digitsVal_zero_pad (k : Nat) (ds : List Char) :
    digitsVal (List.replicate k '0' ++ ds) = digitsVal ds := by
  induction k with
  | zero => simp
  | succ k ih =>
    have h0 : hexVal? '0' = some 0 := by decide
    simp [List.replicate_succ, digitsVal, ih, h0]

theorem hex8_digitsVal (n : Nat) (h : n < 2 ^ 32) : digitsVal (hex8 n) = n := by
  have h16 : n < 16 ^ 16 := lt_of_lt_of_le h (by norm_num)
  unfold hex8
  rw [digitsVal_zero_pad]
  exact (hexStr_spec n h16).2

theorem parseHexCore_eq (ds : List Char) :
    ∀ acc, (∀ c ∈ ds, (hexVal? c).isSome) →
      acc * 16 ^ ds.length + digitsVal ds ≤ USIZE_MAX →
      parseHexCore acc ds = some (acc * 16 ^ ds.length + digitsVal ds) := by
  induction ds with
  | nil =>
    intro acc _ _
    simp [parseHexCore, digitsVal]
  | cons c cs ih =>
    intro acc hall hb
    obtain ⟨d, hd⟩ := Option.isSome_iff_exists.mp (hall c (List.mem_cons_self c cs))
    have heq : (acc * 16 + d) * 16 ^ cs.length + digitsVal cs
        = acc * 16 ^ (c :: cs).length + digitsVal (c :: cs) := by
      simp [digitsVal, hd, pow_succ]
      ring
    have hb' : (acc * 16 + d) * 16 ^ cs.length + digitsVal cs ≤ USIZE_MAX := by
      rw [heq]
      exact hb
    have hle : acc * 16 + d ≤ USIZE_MAX := by
      have h1 : 1 ≤ 16 ^ cs.length := Nat.one_le_pow _ _ (by norm_num)
      have h2 : acc * 16 + d ≤ (acc * 16 + d) * 16 ^ cs.length + digitsVal cs := by
        nlinarith
      exact le_trans h2 hb'
    simp only [parseHexCore, hd]
    rw [if_pos hle, ih (acc * 16 + d) (fun x hx => hall x (List.mem_cons_of_mem c hx)) hb',
      heq]

theorem fromStrRadix16_hex8 (n : Nat) (h : n < 2 ^ 32) :
    fromStrRadix16 (hex8 n) = some n := by
  have hlen := hex8_length n h
  have hdig := hex8_digits n h
  have hval := hex8_digitsVal n h
  rcases hc8 : hex8 n with _ | ⟨c, cs⟩
  · rw [hc8] at hlen
    simp at hlen
  · have hcmem : c ∈ hex8 n := by
      rw [hc8]
      exact List.mem_cons_self c cs
    have hcne : c ≠ '+' := by
      intro hceq
      have := (hdig c hcmem).1
      rw [hceq] at this
      exact absurd this (by decide)
    have hfr : fromStrRadix16 (c :: cs) = parseHexCore 0 (c :: cs) := by
      unfold fromStrRadix16
      split
      · rename_i heq
        exact absurd heq (by simp)
      · rename_i heq
        injection heq with hh1 hh2
        exact absurd hh1 hcne
      · rename_i heq
        injection heq with hh1 hh2
        exact absurd hh1 hcne
      · rfl
    have hbound : 0 * 16 ^ (c :: cs).length + digitsVal (c :: cs) ≤ USIZE_MAX := by
      have hn : digitsVal (c :: cs) = n := by
        rw [← hc8]
        exact hval
      rw [hn]
      simp only [zero_mul, zero_add]
      unfold USIZE_MAX
      have : (2 : Nat) ^ 32 ≤ 2 ^ 64 - 1 := by norm_num
      omega
    have hpc := parseHexCore_eq (c :: cs) 0
      (fun x hx => (hdig x (hc8 ▸ hx)).2) hbound
    rw [hfr, hpc]
    have hn : digitsVal (c :: cs) = n := by
      rw [← hc8]
      exact hval
    simp [hn]

/-- `download` always writes its `download:` command first. -/
theorem download_writes (w : World) (data : List Nat) :
    ∃ rest, ((Fastboot.download w data).2).writes
      = w.writes ++ downloadCmdOfLen data.length :: rest := by
  have h1 := fb_send_writes w (downloadCmdOfLen data.length)
  rcases hfs : fb_send w (downloadCmdOfLen data.length) with ⟨o, w1⟩
  rw [hfs] at h1
  cases o with
  | ok r =>
    cases r with
    | data size =>
      rw [download_eq_of_data w data size w1 hfs]
      by_cases hs : size = data.length
      · rw [if_pos hs, download2_writes]
        have h2 := fb_send_writes w1 data
        exact ⟨[data], by rw [h2, h1]; simp⟩
      · rw [if_neg hs]
        exact ⟨[], h1⟩
    | okay s =>
      rw [download_snd_of_first w data _ w1 hfs (by simp)]
      exact ⟨[], h1⟩
    | fail m =>
      rw [download_snd_of_first w data _ w1 hfs (by simp)]
      exact ⟨[], h1⟩
    | info m =>
      rw [download_snd_of_first w data _ w1 hfs (by simp)]
      exact ⟨[], h1⟩
  | err m =>
    rw [download_snd_of_first w data _ w1 hfs (by simp)]
    exact ⟨[], h1⟩
  | panic =>
    rw [download_snd_of_first w data _ w1 hfs (by simp)]
    exact ⟨[], h1⟩
  | hang =>
    rw [download_snd_of_first w data _ w1 hfs (by simp)]
    exact ⟨[], h1⟩

/-- Counterexample for C7: a payload of length 2^32 (a valid 64-bit
`usize`) makes `format!("{:08x}")` print nine digits, so the command is
longer than `download:` plus 8 digits. -/
theorem download_cmd_overflow_cex :
    (hex8 (2 ^ 32)).length = 9
    ∧ downloadCmdOfLen (2 ^ 32) = strBytes "download:" ++ utf8Encode (hex8 (2 ^ 32))
    ∧ (downloadCmdOfLen (2 ^ 32)).length ≠ (strBytes "download:").length + 8 := by
  decide

/-- C7 (amended): for every payload of length < 2^32, the first command
`download` sends is `download:` followed by exactly 8 lowercase
zero-padded hexadecimal digits whose value is the payload length;
lengths ≥ 2^32 produce more than 8 digits. -/
theorem download_cmd_8_lower_hex (data : List Nat) (h : data.length < 2 ^ 32) :
    downloadCmdOfLen data.length = strBytes "download:" ++ utf8Encode (hex8 data.length)
    ∧ (hex8 data.length).length = 8
    ∧ (∀ c ∈ hex8 data.length, isLowerHexDigit c = true)
    ∧ fromStrRadix16 (hex8 data.length) = some data.length
    ∧ ∀ w : World, ∃ rest,
        ((Fastboot.download w data).2).writes
          = w.writes ++ downloadCmdOfLen data.length :: rest :=
  ⟨rfl, hex8_length data.length h, fun c hc => (hex8_digits data.length h c hc).1,
    fromStrRadix16_hex8 data.length h, fun w => download_writes w data⟩

/-- Witness for C7 at the empty payload: the command's digit block is
`"00000000"`. -/
theorem download_cmd_8_lower_hex_witness :
    (hex8 (List.length ([] : List Nat))).length = 8
    ∧ fromStrRadix16 (hex8 (List.length ([] : List Nat)))
      = some (List.length ([] : List Nat)) :=
  ⟨(download_cmd_8_lower_hex [] (by decide)).2.1,
    (download_cmd_8_lower_hex [] (by decide)).2.2.2.1⟩

/-- Counterexample for C8: a 2-byte bulk-IN completion with a 1-byte
caller buffer panics in `buf[..n].copy_from_slice` instead of copying
what fits. -/
theorem usbRead_overflow_cex :
    usbRead [0] (UsbComp.ok [1, 2]) = (.panic, [0])
    ∧ (usbRead [0] (UsbComp.ok [1, 2])).1 ≠ .ok 2 := by
  decide

/-- C8 (amended): when the bulk-IN transfer completes successfully with
`n` bytes and `n` fits in the non-empty caller buffer, `read` copies the
received bytes into the buffer's prefix and returns `n`; when `n`
exceeds the buffer's capacity the slice operation panics. -/
theorem usbRead_copies_when_fits (buf data : List Nat) (hne : buf ≠ [])
    (hfit : data.length ≤ buf.length) :
    usbRead buf (UsbComp.ok data) = (.ok data.length, data ++ buf.drop data.length) := by
  unfold usbRead
  rw [if_neg (by simpa [List.isEmpty_iff] using hne)]
  simp [hfit]

/-- Witness for C8: two received bytes copied into a 3-byte buffer. -/
theorem usbRead_copies_when_fits_witness :
    usbRead [0, 0, 0] (UsbComp.ok [5, 6]) = (.ok 2, [5, 6, 0]) :=
  usbRead_copies_when_fits [0, 0, 0] [5, 6] (by decide) (by decide)

end Fb

